import Mathlib

/-!
Shallow embedding of the virtual-scroll range computation of this repository.

The embedded code:
* `computeRange` — the single forward pass of the `useMemo` range computation in
  `useFixedSizeList` (src/src/examples/DynamicHeight/helpers/createItems.tsx,
  both hook variants share the identical loop, lines 120-156 and 341-393).
  Heights, offsets and scroll coordinates are JS numbers, embedded as `ℚ`;
  the `-1` "not found" sentinels force the result indices into `ℤ`.
* `getItemHeight` — the per-index height resolution (lines 342-353).
* `measureElement` — the measurement-cache update (lines 404-426; the DOM
  attribute parsing is host glue, the cache write is what is embedded).
* `validateProps` — the configuration check (lines 249-257).
* `jsSlice` — JavaScript `Array.prototype.slice` semantics, used for
  `virtualItems = allRows.slice(startIndex, endIndex + 1)`.
* `fixedFastPathRange` — the O(1) fixed-height formulas exactly as the spec
  states them (a refinement claim compares them with the general pass).
* `simpleRange` — the `useMemo` of `useFixedListSize` in src/unnamed/part_000
  (lines 75-99), the round-based variant.
* `EffectState` machinery — the `isScrolling` debounce effect
  (createItems.tsx lines 319-339) over virtual time, with `window.setTimeout`
  and `window.clearTimeout` modelled as a list of pending one-shot timers.
-/

namespace VirtualScroll

/-- Row descriptor produced for every index during the pass:
`{ height, offsetTop, index }` (the `key` field of the second hook variant is
the item key, irrelevant to the geometric claims). -/
structure Row where
  height : ℚ
  offsetTop : ℚ
  index : ℕ
deriving DecidableEq, Repr

/-- State of the forward pass: `startIndex` and `endIndex` start as the `-1`
sentinel, `totalHeight` accumulates, `allRows` collects the row table. -/
structure PassState where
  startIndex : ℤ
  endIndex : ℤ
  totalHeight : ℚ
  allRows : List Row
deriving DecidableEq, Repr

/-- One iteration of the `for (let index = 0; ...)` loop of the range
`useMemo`.  The source builds `row = { height: getItemHeight(index), offsetTop:
totalHeight, index }`, pushes it, adds to `totalHeight`, and then tests
`startIndex === -1 && row.offsetTop + row.height > scrolledTopArea` and
`endIndex === -1 && row.offsetTop + row.height >= scrolledBottomArea`,
clamping with `Math.max(0, index - overscan)` resp.
`Math.min(elementsQuantity - 1, index + overscan)`. -/
def passStep (getH : ℕ → ℚ) (scrolledTopArea scrolledBottomArea : ℚ)
    (overscan elementsQuantity : ℕ) (s : PassState) (index : ℕ) : PassState where
  startIndex :=
    if s.startIndex = -1 ∧ s.totalHeight + getH index > scrolledTopArea then
      max 0 ((index : ℤ) - (overscan : ℤ))
    else s.startIndex
  endIndex :=
    if s.endIndex = -1 ∧ s.totalHeight + getH index ≥ scrolledBottomArea then
      min ((elementsQuantity : ℤ) - 1) ((index : ℤ) + (overscan : ℤ))
    else s.endIndex
  totalHeight := s.totalHeight + getH index
  allRows := s.allRows ++ [⟨getH index, s.totalHeight, index⟩]

/-- The pass after the first `k` loop iterations (generalisation of
`computeRange` used to state loop invariants). -/
def passPrefix (getH : ℕ → ℚ) (scrolledTopArea scrolledBottomArea : ℚ)
    (overscan elementsQuantity k : ℕ) : PassState :=
  (List.range k).foldl
    (passStep getH scrolledTopArea scrolledBottomArea overscan elementsQuantity)
    ⟨-1, -1, 0, []⟩

/-- The range `useMemo` of `useFixedSizeList`: `scrolledTopArea = scrollTop`,
`scrolledBottomArea = scrollTop + listHeight`, full loop over
`0 ≤ index < elementsQuantity` starting from
`startIndex = endIndex = -1`, `totalHeight = 0`. -/
def computeRange (getH : ℕ → ℚ) (scrollTop listHeight : ℚ)
    (elementsQuantity overscan : ℕ) : PassState :=
  passPrefix getH scrollTop (scrollTop + listHeight) overscan elementsQuantity
    elementsQuantity

/-- JavaScript `Array.prototype.slice(start, stop)`: negative arguments count
from the end, both are clamped to `[0, length]`, and an empty array results
when the effective start is at or past the effective stop. -/
def jsSlice {α : Type} (l : List α) (start stop : ℤ) : List α :=
  let len : ℤ := l.length
  let s : ℤ := if start < 0 then max (len + start) 0 else min start len
  let e : ℤ := if stop < 0 then max (len + stop) 0 else min stop len
  (l.drop s.toNat).take (e - s).toNat

/-- The rendered window: `allRows.slice(startIndex, endIndex + 1)`. -/
def virtualItems (st : PassState) : List Row :=
  jsSlice st.allRows st.startIndex (st.endIndex + 1)

/-- Per-index height resolution of the second hook variant: an explicit
`itemHeight` function wins; otherwise the measurement cache is consulted at
`getItemKey index`; otherwise the estimate is used. -/
def getItemHeight (itemHeight : Option (ℕ → ℚ)) (getItemKey : ℕ → ℤ)
    (measurementCache : ℤ → Option ℚ) (estimateItemHeight : ℚ) (index : ℕ) : ℚ :=
  match itemHeight with
  | some f => f index
  | none =>
    match measurementCache (getItemKey index) with
    | some m => m
    | none => estimateItemHeight

/-- Measurement report: `setMeasurementCache(cache => ({ ...cache, [key]:
size.height }))` with `key = getItemKey(index)` — insert or overwrite one
cache entry, leaving every other key untouched. -/
def measureElement (getItemKey : ℕ → ℤ) (cache : ℤ → Option ℚ)
    (index : ℕ) (measuredHeight : ℚ) : ℤ → Option ℚ :=
  fun k => if k = getItemKey index then some measuredHeight else cache k

/-- Configuration check: `validateProps` throws exactly when neither
`itemHeight` nor `estimateItemHeight` is supplied. -/
def validateProps (itemHeight : Option (ℕ → ℚ)) (estimateItemHeight : Option ℚ) :
    Except String Unit :=
  if itemHeight.isNone && estimateItemHeight.isNone then
    Except.error "Please, provide either itemHeight or estimateItemHeight prop"
  else
    Except.ok ()

/-- Cumulative height of the items before index `k` (the value `totalHeight`
holds when the loop reaches index `k`). -/
def cumHeight (getH : ℕ → ℚ) : ℕ → ℚ
  | 0 => 0
  | k + 1 => cumHeight getH k + getH k

/-- First index `< k` satisfying `q`, scanning upward (mirrors the fact that
the loop latches each sentinel on the first index whose test passes). -/
def firstIdx (q : ℕ → Prop) [DecidablePred q] : ℕ → Option ℕ
  | 0 => none
  | k + 1 =>
    match firstIdx q k with
    | some i => some i
    | none => if q k then some k else none

/-- Value of `startIndex` after `k` iterations, expressed through the first
index whose top-edge test passes. -/
def startIndexSpec (getH : ℕ → ℚ) (top : ℚ) (overscan k : ℕ) : ℤ :=
  match firstIdx (fun i => cumHeight getH i + getH i > top) k with
  | some i => max 0 ((i : ℤ) - (overscan : ℤ))
  | none => -1

/-- Value of `endIndex` after `k` iterations, expressed through the first
index whose bottom-edge test passes. -/
def endIndexSpec (getH : ℕ → ℚ) (bottom : ℚ) (elementsQuantity overscan k : ℕ) : ℤ :=
  match firstIdx (fun i => cumHeight getH i + getH i ≥ bottom) k with
  | some i => min ((elementsQuantity : ℤ) - 1) ((i : ℤ) + (overscan : ℤ))
  | none => -1

/-- The O(1) fixed-height fast path exactly as the specification states it:
`startIndex = max(0, floor(scrollOffset/height) - overscan)`,
`endIndex = min(itemCount-1, ceil((scrollOffset+viewportSize)/height) + overscan)`,
`totalHeight = itemCount * height`. -/
def fixedFastPathRange (height scrollOffset viewportSize : ℚ)
    (itemCount overscan : ℕ) : ℤ × ℤ × ℚ :=
  (max 0 (⌊scrollOffset / height⌋ - (overscan : ℤ)),
   min ((itemCount : ℤ) - 1)
     (⌈(scrollOffset + viewportSize) / height⌉ + (overscan : ℤ)),
   (itemCount : ℚ) * height)

/-- The fixed-height fast path with its end formula corrected to the value
the general pass actually produces: the first index whose bottom edge reaches
`scrollOffset + viewportSize` is `max(0, ceil((scrollOffset+viewportSize)/height) - 1)`,
not `ceil((scrollOffset+viewportSize)/height)`. -/
def correctedFastPathRange (height scrollOffset viewportSize : ℚ)
    (itemCount overscan : ℕ) : ℤ × ℤ × ℚ :=
  (max 0 (⌊scrollOffset / height⌋ - (overscan : ℤ)),
   min ((itemCount : ℤ) - 1)
     (max 0 (⌈(scrollOffset + viewportSize) / height⌉ - 1) + (overscan : ℤ)),
   (itemCount : ℚ) * height)

/-- JavaScript `Math.round`: half-way cases round toward positive infinity. -/
def jsRound (q : ℚ) : ℤ := ⌊q + 1 / 2⌋

/-- The range `useMemo` of `useFixedListSize` (src/unnamed/part_000 lines
75-99): `CONTAINER_HEIGHT = elementHeight * elementHeight`, `START_INDEX =
round(scrollTop / elementHeight)` then `max(0, START_INDEX - overscan)`,
`END_INDEX = round((scrollTop + CONTAINER_HEIGHT) / elementHeight)` then
`min(list.length, END_INDEX + overscan)`. -/
def simpleRange (elementHeight scrollTop : ℚ) (listLength overscan : ℕ) : ℤ × ℤ :=
  let containerHeight := elementHeight * elementHeight
  let rangeStart := scrollTop
  let rangeEnd := scrollTop + containerHeight
  let startIdx := jsRound (rangeStart / elementHeight)
  let endIdx := jsRound (rangeEnd / elementHeight)
  (max 0 (startIdx - (overscan : ℤ)), min (listLength : ℤ) (endIdx + (overscan : ℤ)))

/-- The module constant `SCROLLING_DELAY = 150` of createItems.tsx. -/
def SCROLLING_DELAY : ℚ := 150

/-- State of the `isScrolling` effect over virtual time.  `timeoutId` is the
closure variable `let timeoutId: number | null = null`; `pendingTimers` is the
set of one-shot timers currently scheduled in the host (id, absolute expiry);
`nextTimerId` models the host handing out fresh positive timer ids;
`listenerAttached` records whether the scroll listener is subscribed. -/
structure EffectState where
  isScrolling : Bool
  timeoutId : Option ℕ
  pendingTimers : List (ℕ × ℚ)
  nextTimerId : ℕ
  listenerAttached : Bool
deriving DecidableEq, Repr

/-- Effect body once `getScrollElement()` returned a non-null element:
`timeoutId = null`, `addEventListener("scroll", handleScroll)`.  Browser timer
ids are positive, so fresh ids start at 1. -/
def setupEffect : EffectState :=
  ⟨false, none, [], 1, true⟩

/-- Effect body on the early-return path (`if (!scrollingElement) return;`):
no listener and no timer are ever created. -/
def setupEffectAbsent : EffectState :=
  ⟨false, none, [], 1, false⟩

/-- `window.setTimeout(cb, delay)` at virtual time `now`: schedule a one-shot
timer and return its id. -/
def setTimeoutAt (s : EffectState) (expiry : ℚ) : ℕ × EffectState :=
  (s.nextTimerId,
   { s with pendingTimers := s.pendingTimers ++ [(s.nextTimerId, expiry)],
            nextTimerId := s.nextTimerId + 1 })

/-- `window.clearTimeout(id)`: drop the pending timer with this id (a no-op if
it already fired or never existed). -/
def clearTimeoutId (s : EffectState) (id : ℕ) : EffectState :=
  { s with pendingTimers := s.pendingTimers.filter (fun p => p.1 ≠ id) }

set_option linter.unusedVariables false in
/-- The `handleScroll` installed by the `isScrolling` effect of
`useFixedSizeList` (createItems.tsx lines 326-334): `setIsScrolling(true)`;
`if (timeoutId) window.clearTimeout(timeoutId)`; `timeoutId =
window.setTimeout(() => setIsScrolling(false), SCROLLING_DELAY)`.  The hook
receives a `scrollingDelay` prop (default 150) and lists it in the effect
dependencies, but the `setTimeout` call passes the module constant
`SCROLLING_DELAY`; the parameter is kept here to mirror the configuration and
is unused exactly as in the source.  JS truthiness of `if (timeoutId)` is
`timeoutId !== null && timeoutId !== 0`. -/
def handleScroll (scrollingDelay : ℚ) (now : ℚ) (s : EffectState) : EffectState :=
  let s1 : EffectState := { s with isScrolling := true }
  let s2 : EffectState :=
    match s1.timeoutId with
    | some tid => if tid ≠ 0 then clearTimeoutId s1 tid else s1
    | none => s1
  let idAndState := setTimeoutAt s2 (now + SCROLLING_DELAY)
  { idAndState.2 with timeoutId := some idAndState.1 }

/-- The `handleScroll` of `useFixedListSize` (src/unnamed/part_000 lines
48-63), which passes the configured `scrollingDelay` to `setTimeout`.  (Its
`setScrollTop` update does not touch the debounce state.) -/
def handleScrollSimple (scrollingDelay : ℚ) (now : ℚ) (s : EffectState) : EffectState :=
  let s1 : EffectState := { s with isScrolling := true }
  let s2 : EffectState :=
    match s1.timeoutId with
    | some tid => if tid ≠ 0 then clearTimeoutId s1 tid else s1
    | none => s1
  let idAndState := setTimeoutAt s2 (now + scrollingDelay)
  { idAndState.2 with timeoutId := some idAndState.1 }

/-- A scroll notification at virtual time `now`: the handler runs only while
the listener is subscribed. -/
def scrollEvent (scrollingDelay : ℚ) (now : ℚ) (s : EffectState) : EffectState :=
  if s.listenerAttached then handleScroll scrollingDelay now s else s

/-- Advance virtual time to `now`: every pending timer whose expiry has been
reached fires its callback `() => setIsScrolling(false)` and is removed. -/
def fireDueTimers (now : ℚ) (s : EffectState) : EffectState :=
  s.pendingTimers.foldl
    (fun st p =>
      if p.2 ≤ now then { clearTimeoutId st p.1 with isScrolling := false }
      else st)
    s

/-- The effect cleanup of `useFixedSizeList` (createItems.tsx line 338):
`scrollingElement.removeEventListener("scroll", handleScroll)` — and nothing
else; in particular no `clearTimeout`, so `pendingTimers` is untouched. -/
def cleanupEffect (s : EffectState) : EffectState :=
  { s with listenerAttached := false }

/-! ## Loop invariants of the forward pass -/

lemma passPrefix_succ (getH : ℕ → ℚ) (t b : ℚ) (ov n k : ℕ) :
    passPrefix getH t b ov n (k + 1) =
      passStep getH t b ov n (passPrefix getH t b ov n k) k := by
  unfold passPrefix
  rw [List.range_succ, List.foldl_append, List.foldl_cons, List.foldl_nil]

lemma passPrefix_totalHeight (getH : ℕ → ℚ) (t b : ℚ) (ov n k : ℕ) :
    (passPrefix getH t b ov n k).totalHeight = cumHeight getH k := by
  induction k with
  | zero => rfl
  | succ k ih =>
    rw [passPrefix_succ]
    simp [passStep, ih, cumHeight]

lemma passPrefix_allRows (getH : ℕ → ℚ) (t b : ℚ) (ov n k : ℕ) :
    (passPrefix getH t b ov n k).allRows =
      (List.range k).map (fun i => Row.mk (getH i) (cumHeight getH i) i) := by
  induction k with
  | zero => rfl
  | succ k ih =>
    rw [passPrefix_succ]
    simp [passStep, ih, List.range_succ, passPrefix_totalHeight]

lemma firstIdx_eq_none (q : ℕ → Prop) [DecidablePred q] (k : ℕ)
    (h : ∀ j, j < k → ¬ q j) : firstIdx q k = none := by
  induction k with
  | zero => rfl
  | succ k ih =>
    simp only [firstIdx]
    rw [ih (fun j hj => h j (by omega)), if_neg (h k (by omega))]

lemma firstIdx_none_spec (q : ℕ → Prop) [DecidablePred q] (k : ℕ)
    (h : firstIdx q k = none) : ∀ j, j < k → ¬ q j := by
  induction k with
  | zero => omega
  | succ k ih =>
    simp only [firstIdx] at h
    cases hf : firstIdx q k with
    | some i => rw [hf] at h; exact absurd h (by simp)
    | none =>
      rw [hf] at h
      intro j hj
      by_cases hq : q k
      · rw [if_pos hq] at h; exact absurd h (by simp)
      · rcases Nat.lt_succ_iff_lt_or_eq.mp hj with hj' | hj'
        · exact ih hf j hj'
        · subst hj'; exact hq

lemma firstIdx_some_spec (q : ℕ → Prop) [DecidablePred q] (k i : ℕ)
    (h : firstIdx q k = some i) : i < k ∧ q i ∧ ∀ j, j < i → ¬ q j := by
  induction k with
  | zero => exact absurd h (by simp [firstIdx])
  | succ k ih =>
    simp only [firstIdx] at h
    cases hf : firstIdx q k with
    | some i2 =>
      rw [hf] at h
      obtain rfl : i2 = i := by simpa using h
      obtain ⟨h1, h2, h3⟩ := ih hf
      exact ⟨by omega, h2, h3⟩
    | none =>
      rw [hf] at h
      by_cases hq : q k
      · rw [if_pos hq] at h
        obtain rfl : k = i := by simpa using h
        exact ⟨by omega, hq, firstIdx_none_spec q k hf⟩
      · rw [if_neg hq] at h; exact absurd h (by simp)

lemma firstIdx_of_least (q : ℕ → Prop) [DecidablePred q] (k i : ℕ)
    (hik : i < k) (hqi : q i) (hmin : ∀ j, j < i → ¬ q j) :
    firstIdx q k = some i := by
  induction k with
  | zero => omega
  | succ k ih =>
    simp only [firstIdx]
    by_cases h : i < k
    · rw [ih h]
    · obtain rfl : i = k := by omega
      rw [firstIdx_eq_none q i hmin, if_pos hqi]

lemma firstIdx_le_of_prop (q : ℕ → Prop) [DecidablePred q] (k j : ℕ)
    (hjk : j < k) (hqj : q j) : ∃ i, firstIdx q k = some i ∧ i ≤ j := by
  cases hf : firstIdx q k with
  | none => exact absurd hqj (firstIdx_none_spec q k hf j hjk)
  | some i =>
    obtain ⟨_, _, hmin⟩ := firstIdx_some_spec q k i hf
    refine ⟨i, rfl, ?_⟩
    by_contra hcon
    exact hmin j (by omega) hqj

lemma passPrefix_startIndex (getH : ℕ → ℚ) (t b : ℚ) (ov n k : ℕ) :
    (passPrefix getH t b ov n k).startIndex = startIndexSpec getH t ov k := by
  induction k with
  | zero => rfl
  | succ k ih =>
    rw [passPrefix_succ]
    show (if (passPrefix getH t b ov n k).startIndex = -1 ∧
            (passPrefix getH t b ov n k).totalHeight + getH k > t then
            max 0 ((k : ℤ) - (ov : ℤ))
          else (passPrefix getH t b ov n k).startIndex) = _
    rw [ih, passPrefix_totalHeight]
    unfold startIndexSpec
    simp only [firstIdx]
    cases hf : firstIdx (fun i => cumHeight getH i + getH i > t) k with
    | some i =>
      rw [if_neg]
      rintro ⟨h1, -⟩
      have h1' : max 0 ((i : ℤ) - (ov : ℤ)) = -1 := h1
      have h2 : (0 : ℤ) ≤ max 0 ((i : ℤ) - (ov : ℤ)) := le_max_left _ _
      rw [h1'] at h2
      exact absurd h2 (by norm_num)
    | none =>
      by_cases hq : cumHeight getH k + getH k > t
      · rw [if_pos ⟨rfl, hq⟩, if_pos hq]
      · rw [if_neg (by rintro ⟨-, h2⟩; exact hq h2), if_neg hq]

lemma passPrefix_endIndex (getH : ℕ → ℚ) (t b : ℚ) (ov n k : ℕ) (hn : 0 < n) :
    (passPrefix getH t b ov n k).endIndex = endIndexSpec getH b n ov k := by
  induction k with
  | zero => rfl
  | succ k ih =>
    rw [passPrefix_succ]
    show (if (passPrefix getH t b ov n k).endIndex = -1 ∧
            (passPrefix getH t b ov n k).totalHeight + getH k ≥ b then
            min ((n : ℤ) - 1) ((k : ℤ) + (ov : ℤ))
          else (passPrefix getH t b ov n k).endIndex) = _
    rw [ih, passPrefix_totalHeight]
    unfold endIndexSpec
    simp only [firstIdx]
    cases hf : firstIdx (fun i => cumHeight getH i + getH i ≥ b) k with
    | some i =>
      rw [if_neg]
      rintro ⟨h1, -⟩
      have h1' : min ((n : ℤ) - 1) ((i : ℤ) + (ov : ℤ)) = -1 := h1
      have h2 : (0 : ℤ) ≤ (n : ℤ) - 1 := by omega
      have h3 : (0 : ℤ) ≤ (i : ℤ) + (ov : ℤ) := by omega
      have h4 : (0 : ℤ) ≤ min ((n : ℤ) - 1) ((i : ℤ) + (ov : ℤ)) := le_min h2 h3
      rw [h1'] at h4
      exact absurd h4 (by norm_num)
    | none =>
      by_cases hq : cumHeight getH k + getH k ≥ b
      · rw [if_pos ⟨rfl, hq⟩, if_pos hq]
      · rw [if_neg (by rintro ⟨-, h2⟩; exact hq h2), if_neg hq]

lemma cumHeight_eq_sum (getH : ℕ → ℚ) (k : ℕ) :
    cumHeight getH k = Finset.sum (Finset.range k) getH := by
  induction k with
  | zero => simp [cumHeight]
  | succ k ih => simp [cumHeight, Finset.sum_range_succ, ih]

lemma computeRange_totalHeight (getH : ℕ → ℚ) (s v : ℚ) (n ov : ℕ) :
    (computeRange getH s v n ov).totalHeight = cumHeight getH n :=
  passPrefix_totalHeight getH s (s + v) ov n n

lemma computeRange_allRows_get (getH : ℕ → ℚ) (s v : ℚ) (n ov i : ℕ)
    (hi : i < n) :
    (computeRange getH s v n ov).allRows[i]? =
      some (Row.mk (getH i) (cumHeight getH i) i) := by
  show (passPrefix getH s (s + v) ov n n).allRows[i]? = _
  rw [passPrefix_allRows]
  simp [List.getElem?_map, List.getElem?_range hi]

lemma computeRange_one (getH : ℕ → ℚ) (s v : ℚ) (ov : ℕ) :
    computeRange getH s v 1 ov = passStep getH s (s + v) ov 1 ⟨-1, -1, 0, []⟩ 0 := by
  show passPrefix getH s (s + v) ov 1 1 = _
  rw [passPrefix_succ]
  rfl

lemma computeRange_startIndex (getH : ℕ → ℚ) (s v : ℚ) (n ov : ℕ) :
    (computeRange getH s v n ov).startIndex = startIndexSpec getH s ov n :=
  passPrefix_startIndex getH s (s + v) ov n n

lemma computeRange_endIndex (getH : ℕ → ℚ) (s v : ℚ) (n ov : ℕ) (hn : 0 < n) :
    (computeRange getH s v n ov).endIndex = endIndexSpec getH (s + v) n ov n :=
  passPrefix_endIndex getH s (s + v) ov n n hn

lemma startIndexSpec_of_firstIdx (getH : ℕ → ℚ) (t : ℚ) (ov n i : ℕ)
    (h : firstIdx (fun i => cumHeight getH i + getH i > t) n = some i) :
    startIndexSpec getH t ov n = max 0 ((i : ℤ) - (ov : ℤ)) := by
  unfold startIndexSpec
  rw [h]

lemma endIndexSpec_of_firstIdx (getH : ℕ → ℚ) (b : ℚ) (n ov i : ℕ)
    (h : firstIdx (fun i => cumHeight getH i + getH i ≥ b) n = some i) :
    endIndexSpec getH b n ov n = min ((n : ℤ) - 1) ((i : ℤ) + (ov : ℤ)) := by
  unfold endIndexSpec
  rw [h]

lemma cumHeight_const (w : ℚ) (k : ℕ) :
    cumHeight (fun _ => w) k = (k : ℚ) * w := by
  induction k with
  | zero => simp [cumHeight]
  | succ k ih =>
    show cumHeight (fun _ => w) k + w = _
    rw [ih]
    push_cast
    ring

/-- Closed form of the general pass under a uniform height `w > 0`, whenever
the scroll offset lies strictly inside the content and the viewport bottom
does not pass its end (so both edge tests fire). -/
lemma computeRange_const_height (w s v : ℚ) (n ov : ℕ) (hw : 0 < w)
    (hs : 0 ≤ s) (hn : 0 < n) (hlt : s < (n : ℚ) * w)
    (hle : s + v ≤ (n : ℚ) * w) :
    (computeRange (fun _ => w) s v n ov).startIndex =
      max 0 (⌊s / w⌋ - (ov : ℤ)) ∧
    (computeRange (fun _ => w) s v n ov).endIndex =
      min ((n : ℤ) - 1) (max 0 (⌈(s + v) / w⌉ - 1) + (ov : ℤ)) ∧
    (computeRange (fun _ => w) s v n ov).totalHeight = (n : ℚ) * w := by
  have hw' : w ≠ 0 := ne_of_gt hw
  have hf0 : (0 : ℤ) ≤ ⌊s / w⌋ := Int.floor_nonneg.mpr (div_nonneg hs hw.le)
  have hi0 : (((⌊s / w⌋).toNat : ℤ)) = ⌊s / w⌋ := Int.toNat_of_nonneg hf0
  have hi0q : (((⌊s / w⌋).toNat : ℚ)) = ((⌊s / w⌋ : ℤ) : ℚ) := by
    exact_mod_cast hi0
  have hq0 : cumHeight (fun _ => w) (⌊s / w⌋).toNat + w > s := by
    rw [cumHeight_const, hi0q]
    have h1 : s / w < (⌊s / w⌋ : ℚ) + 1 := Int.lt_floor_add_one _
    have h2 : (s / w) * w < ((⌊s / w⌋ : ℚ) + 1) * w := mul_lt_mul_of_pos_right h1 hw
    rw [div_mul_cancel₀ s hw'] at h2
    nlinarith
  have hmin0 : ∀ j, j < (⌊s / w⌋).toNat → ¬ (cumHeight (fun _ => w) j + w > s) := by
    intro j hj hq
    rw [cumHeight_const] at hq
    have hj1 : ((j : ℤ) + 1) ≤ ⌊s / w⌋ := by omega
    have hj2 : ((j : ℚ) + 1) ≤ ((⌊s / w⌋ : ℤ) : ℚ) := by exact_mod_cast hj1
    have hj3 : ((j : ℚ) + 1) ≤ s / w := le_trans hj2 (Int.floor_le _)
    have hj4 : ((j : ℚ) + 1) * w ≤ (s / w) * w :=
      mul_le_mul_of_nonneg_right hj3 hw.le
    rw [div_mul_cancel₀ s hw'] at hj4
    nlinarith
  have hi0n : (⌊s / w⌋).toNat < n := by
    have h1 : s / w < ((n : ℤ) : ℚ) := by
      rw [div_lt_iff₀ hw]
      push_cast
      exact hlt
    have h2 : ⌊s / w⌋ < (n : ℤ) := Int.floor_lt.mpr h1
    omega
  have hfiTop :
      firstIdx (fun i => cumHeight (fun _ => w) i + (fun _ => w) i > s) n =
        some (⌊s / w⌋).toNat :=
    firstIdx_of_least _ n (⌊s / w⌋).toNat hi0n hq0 hmin0
  have hj0 : (((max 0 (⌈(s + v) / w⌉ - 1)).toNat : ℤ)) =
      max 0 (⌈(s + v) / w⌉ - 1) := Int.toNat_of_nonneg (le_max_left _ _)
  have hqb0 : cumHeight (fun _ => w) (max 0 (⌈(s + v) / w⌉ - 1)).toNat + w ≥
      s + v := by
    rw [cumHeight_const]
    have h1 : ⌈(s + v) / w⌉ - 1 ≤ ((max 0 (⌈(s + v) / w⌉ - 1)).toNat : ℤ) := by
      rw [hj0]; exact le_max_right _ _
    have h2 : ⌈(s + v) / w⌉ ≤ ((max 0 (⌈(s + v) / w⌉ - 1)).toNat : ℤ) + 1 := by
      omega
    have h3 : (s + v) / w ≤ ((⌈(s + v) / w⌉ : ℤ) : ℚ) := Int.le_ceil _
    have h4 : ((⌈(s + v) / w⌉ : ℤ) : ℚ) ≤
        ((max 0 (⌈(s + v) / w⌉ - 1)).toNat : ℚ) + 1 := by exact_mod_cast h2
    have h5 : (s + v) / w ≤ ((max 0 (⌈(s + v) / w⌉ - 1)).toNat : ℚ) + 1 :=
      le_trans h3 h4
    have h6 : ((s + v) / w) * w ≤
        (((max 0 (⌈(s + v) / w⌉ - 1)).toNat : ℚ) + 1) * w :=
      mul_le_mul_of_nonneg_right h5 hw.le
    rw [div_mul_cancel₀ _ hw'] at h6
    nlinarith
  have hminb : ∀ j, j < (max 0 (⌈(s + v) / w⌉ - 1)).toNat →
      ¬ (cumHeight (fun _ => w) j + w ≥ s + v) := by
    intro j hj hq
    rw [cumHeight_const] at hq
    have hj1 : (j : ℤ) + 1 ≤ max 0 (⌈(s + v) / w⌉ - 1) := by omega
    have hj2 : (j : ℤ) + 1 ≤ ⌈(s + v) / w⌉ - 1 := by
      rcases le_max_iff.mp hj1 with h | h
      · omega
      · exact h
    have hj3 : (j : ℤ) + 1 < ⌈(s + v) / w⌉ := by omega
    have hj4 : (((j : ℤ) + 1 : ℤ) : ℚ) < (s + v) / w := Int.lt_ceil.mp hj3
    have hj5 : ((j : ℚ) + 1) < (s + v) / w := by push_cast at hj4; exact hj4
    have hj6 : ((j : ℚ) + 1) * w < ((s + v) / w) * w :=
      mul_lt_mul_of_pos_right hj5 hw
    rw [div_mul_cancel₀ _ hw'] at hj6
    nlinarith
  have hj0n : (max 0 (⌈(s + v) / w⌉ - 1)).toNat < n := by
    have h1 : (s + v) / w ≤ ((n : ℤ) : ℚ) := by
      rw [div_le_iff₀ hw]
      push_cast
      exact hle
    have h2 : ⌈(s + v) / w⌉ ≤ (n : ℤ) := Int.ceil_le.mpr h1
    omega
  have hfiBot :
      firstIdx (fun i => cumHeight (fun _ => w) i + (fun _ => w) i ≥ s + v) n =
        some (max 0 (⌈(s + v) / w⌉ - 1)).toNat :=
    firstIdx_of_least _ n (max 0 (⌈(s + v) / w⌉ - 1)).toNat hj0n hqb0 hminb
  refine ⟨?_, ?_, ?_⟩
  · rw [computeRange_startIndex,
      startIndexSpec_of_firstIdx (fun _ => w) s ov n (⌊s / w⌋).toNat hfiTop, hi0]
  · rw [computeRange_endIndex (fun _ => w) s v n ov hn,
      endIndexSpec_of_firstIdx (fun _ => w) (s + v) n ov
        (max 0 (⌈(s + v) / w⌉ - 1)).toNat hfiBot, hj0]
  · rw [computeRange_totalHeight, cumHeight_const]

/-! ## Claim theorems -/

/-- C1 (amended): when the item count is positive, the viewport height is
positive and the viewport does not extend past the content
(`scrollOffset + viewportSize ≤ totalHeight`), the pass returns indices with
`0 ≤ startIndex ≤ endIndex ≤ itemCount - 1`.  (As originally stated — in
particular for a scroll offset at or beyond the end of the content — the
claim is refuted by `range_indices_sentinel_when_scrolled_past_end`.) -/
theorem range_indices_bounded_within_content (getH : ℕ → ℚ) (s v : ℚ)
    (n ov : ℕ) (hn : 0 < n) (hv : 0 < v)
    (hfit : s + v ≤ cumHeight getH n) :
    0 ≤ (computeRange getH s v n ov).startIndex ∧
    (computeRange getH s v n ov).startIndex ≤ (computeRange getH s v n ov).endIndex ∧
    (computeRange getH s v n ov).endIndex ≤ (n : ℤ) - 1 := by
  obtain ⟨m, rfl⟩ : ∃ m, m + 1 = n := ⟨n - 1, by omega⟩
  have hqb : cumHeight getH m + getH m ≥ s + v := by
    have : cumHeight getH (m + 1) = cumHeight getH m + getH m := rfl
    rw [this] at hfit
    exact hfit
  obtain ⟨j, hj, hjm⟩ :=
    firstIdx_le_of_prop (fun i => cumHeight getH i + getH i ≥ s + v) (m + 1) m
      (by omega) hqb
  have hqj : cumHeight getH j + getH j ≥ s + v :=
    (firstIdx_some_spec _ _ _ hj).2.1
  have hqtj : cumHeight getH j + getH j > s := lt_of_lt_of_le (by linarith) hqj
  obtain ⟨i, hi, hij⟩ :=
    firstIdx_le_of_prop (fun i => cumHeight getH i + getH i > s) (m + 1) j
      (by omega) hqtj
  rw [computeRange_startIndex, computeRange_endIndex getH s v (m + 1) ov hn]
  unfold startIndexSpec endIndexSpec
  rw [hi, hj]
  refine ⟨le_max_left _ _, ?_, min_le_left _ _⟩
  refine le_min (max_le (by omega) (by omega)) (max_le (by omega) (by omega))

/-- C1 (counterexample): with one item of height 40, overscan 3, viewport 600
and scroll offset 100 (at/beyond the end of the 40-unit content) neither edge
test ever fires, so both indices come back as the `-1` sentinel, violating
`0 ≤ startIndex ≤ endIndex ≤ itemCount - 1`. -/
theorem range_indices_sentinel_when_scrolled_past_end :
    ¬ (0 ≤ (computeRange (fun _ => (40 : ℚ)) 100 600 1 3).startIndex ∧
       (computeRange (fun _ => (40 : ℚ)) 100 600 1 3).startIndex ≤
         (computeRange (fun _ => (40 : ℚ)) 100 600 1 3).endIndex ∧
       (computeRange (fun _ => (40 : ℚ)) 100 600 1 3).endIndex ≤ (1 : ℤ) - 1) ∧
    (computeRange (fun _ => (40 : ℚ)) 100 600 1 3).startIndex = -1 ∧
    (computeRange (fun _ => (40 : ℚ)) 100 600 1 3).endIndex = -1 := by
  have h : computeRange (fun _ => (40 : ℚ)) 100 600 1 3 =
      PassState.mk (-1) (-1) 40 [Row.mk 40 0 0] := by
    rw [computeRange_one]
    unfold passStep
    norm_num
  rw [h]
  norm_num

/-- C1 (witness): concrete instance of the amended bound. -/
theorem range_indices_bounded_within_content_app :
    0 ≤ (computeRange (fun _ => (40 : ℚ)) 0 40 1 3).startIndex ∧
    (computeRange (fun _ => (40 : ℚ)) 0 40 1 3).startIndex ≤
      (computeRange (fun _ => (40 : ℚ)) 0 40 1 3).endIndex ∧
    (computeRange (fun _ => (40 : ℚ)) 0 40 1 3).endIndex ≤ (1 : ℤ) - 1 :=
  range_indices_bounded_within_content (fun _ => (40 : ℚ)) 0 40 1 3
    (by norm_num) (by norm_num) (by norm_num [cumHeight])

/-- C3: every pass writes `rows[i].offsetTop = sum of height(j) for j < i`
(equivalently `offsetTop(0) = 0` and
`offsetTop(i+1) = offsetTop(i) + height(i)`), and the returned `totalHeight`
is the sum of all `itemCount` heights. -/
theorem rows_offsets_are_prefix_sums (getH : ℕ → ℚ) (s v : ℚ) (n ov : ℕ) :
    (∀ i, i < n →
      (computeRange getH s v n ov).allRows[i]? =
        some (Row.mk (getH i) (Finset.sum (Finset.range i) getH) i)) ∧
    (∀ i, i + 1 < n →
      ((computeRange getH s v n ov).allRows[i + 1]?.map Row.offsetTop) =
        ((computeRange getH s v n ov).allRows[i]?.map
          (fun r => r.offsetTop + getH i))) ∧
    (computeRange getH s v n ov).totalHeight = Finset.sum (Finset.range n) getH := by
  refine ⟨?_, ?_, ?_⟩
  · intro i hi
    rw [computeRange_allRows_get getH s v n ov i hi, cumHeight_eq_sum]
  · intro i hi
    rw [computeRange_allRows_get getH s v n ov (i + 1) hi,
      computeRange_allRows_get getH s v n ov i (by omega)]
    rfl
  · rw [computeRange_totalHeight, cumHeight_eq_sum]

/-- C3 (witness): concrete instance at index 2 of a 3-item pass. -/
theorem rows_offsets_are_prefix_sums_app :
    (computeRange (fun i => (i : ℚ)) 0 0 3 0).allRows[2]? =
      some (Row.mk 2 (Finset.sum (Finset.range 2) (fun i => (i : ℚ))) 2) :=
  (rows_offsets_are_prefix_sums (fun i => (i : ℚ)) 0 0 3 0).1 2 (by norm_num)

/-- C5 (code evaluation): with one item of height 40, viewport 600 and scroll
offset 0 the bottom-edge test `offsetTop + height >= scrollOffset +
viewportSize` never fires, and the code returns the `-1` sentinel — not
`itemCount - 1` — because the `Math.min(elementsQuantity - 1, ...)` clamp sits
inside the never-taken branch; `allRows.slice(startIndex, endIndex + 1)` then
renders nothing although the single item is fully visible. -/
theorem endIndex_sentinel_when_viewport_past_content :
    (computeRange (fun _ => (40 : ℚ)) 0 600 1 3).endIndex = -1 ∧
    (computeRange (fun _ => (40 : ℚ)) 0 600 1 3).endIndex ≠ (1 : ℤ) - 1 ∧
    virtualItems (computeRange (fun _ => (40 : ℚ)) 0 600 1 3) = [] := by
  have h : computeRange (fun _ => (40 : ℚ)) 0 600 1 3 =
      PassState.mk 0 (-1) 40 [Row.mk 40 0 0] := by
    rw [computeRange_one]
    unfold passStep
    norm_num
  rw [h]
  refine ⟨rfl, by norm_num, rfl⟩

/-- C7: `validateProps` raises its configuration error exactly when neither
`itemHeight` nor `estimateItemHeight` is supplied, and succeeds whenever at
least one of them is. -/
theorem validateProps_error_iff_neither_supplied (itemHeight : Option (ℕ → ℚ))
    (estimateItemHeight : Option ℚ) :
    ((∃ msg, validateProps itemHeight estimateItemHeight = Except.error msg) ↔
      (itemHeight.isNone = true ∧ estimateItemHeight.isNone = true)) ∧
    (validateProps itemHeight estimateItemHeight = Except.ok () ↔
      ¬ (itemHeight.isNone = true ∧ estimateItemHeight.isNone = true)) := by
  cases itemHeight <;> cases estimateItemHeight <;> simp [validateProps]

/-- C7 (witness): an estimate alone passes validation. -/
theorem validateProps_error_iff_neither_supplied_app :
    validateProps none (some 16) = Except.ok () :=
  (validateProps_error_iff_neither_supplied none (some 16)).2.mpr (by simp)

/-- C6: under the measured-with-estimate strategy (`itemHeight` absent),
`getItemHeight` answers with the cached measurement for `getItemKey index`
when present and with the estimate otherwise; after `measureElement` reports
height `hm` for `index`, every subsequent pass uses `hm` for that index
(other indices are untouched when keys are injective), so the row after the
measured one sits exactly `hm` below it. -/
theorem measured_heights_used_after_report (getItemKey : ℕ → ℤ)
    (hinj : Function.Injective getItemKey) (cache : ℤ → Option ℚ) (est : ℚ)
    (index : ℕ) (hm : ℚ) (s v : ℚ) (n ov : ℕ) (hidx : index + 1 < n) :
    (∀ j m, cache (getItemKey j) = some m →
      getItemHeight none getItemKey cache est j = m) ∧
    (∀ j, cache (getItemKey j) = none →
      getItemHeight none getItemKey cache est j = est) ∧
    getItemHeight none getItemKey (measureElement getItemKey cache index hm) est
      index = hm ∧
    (∀ j, j ≠ index →
      getItemHeight none getItemKey (measureElement getItemKey cache index hm)
        est j = getItemHeight none getItemKey cache est j) ∧
    ((computeRange
        (getItemHeight none getItemKey (measureElement getItemKey cache index hm)
          est) s v n ov).allRows[index + 1]?.map Row.offsetTop =
      (computeRange
        (getItemHeight none getItemKey (measureElement getItemKey cache index hm)
          est) s v n ov).allRows[index]?.map (fun r => r.offsetTop + hm)) := by
  have hhit : getItemHeight none getItemKey
      (measureElement getItemKey cache index hm) est index = hm := by
    simp [getItemHeight, measureElement]
  refine ⟨?_, ?_, hhit, ?_, ?_⟩
  · intro j m hj
    simp [getItemHeight, hj]
  · intro j hj
    simp [getItemHeight, hj]
  · intro j hj
    have hkey : getItemKey j ≠ getItemKey index := fun heq => hj (hinj heq)
    simp [getItemHeight, measureElement, if_neg hkey]
  · rw [computeRange_allRows_get _ s v n ov (index + 1) hidx,
      computeRange_allRows_get _ s v n ov index (by omega)]
    show some (cumHeight _ (index + 1)) = some (cumHeight _ index + hm)
    have hstep : cumHeight
        (getItemHeight none getItemKey (measureElement getItemKey cache index hm)
          est) (index + 1) =
        cumHeight (getItemHeight none getItemKey
          (measureElement getItemKey cache index hm) est) index +
        getItemHeight none getItemKey (measureElement getItemKey cache index hm)
          est index := rfl
    rw [hstep, hhit]

/-- C6 (witness): estimate 16, identity keys, report height 50 for index 5 on
an empty cache — row 6 then sits exactly 50 below row 5. -/
theorem measured_heights_used_after_report_app :
    ((computeRange
        (getItemHeight none (fun i => (i : ℤ))
          (measureElement (fun i => (i : ℤ)) (fun _ => none) 5 50) 16)
        0 0 10 3).allRows[5 + 1]?.map Row.offsetTop =
      (computeRange
        (getItemHeight none (fun i => (i : ℤ))
          (measureElement (fun i => (i : ℤ)) (fun _ => none) 5 50) 16)
        0 0 10 3).allRows[5]?.map (fun r => r.offsetTop + 50)) :=
  (measured_heights_used_after_report (fun i => (i : ℤ))
    (fun a b hab => by simpa using hab) (fun _ => none) 16 5 50 0 0 10 3
    (by norm_num)).2.2.2.2

/-- C10: when an explicit `itemHeight` function is supplied alongside an
estimate (a combination `validateProps` accepts), every height query answers
with `itemHeight(index)`, and the computed range is completely independent of
the measurement cache and the estimate, so measurement reports cannot change
it. -/
theorem explicit_itemHeight_shadows_cache (f : ℕ → ℚ) (getItemKey : ℕ → ℤ)
    (cache cache2 : ℤ → Option ℚ) (est est2 : ℚ) (s v : ℚ) (n ov : ℕ) :
    (∀ index, getItemHeight (some f) getItemKey cache est index = f index) ∧
    validateProps (some f) (some est) = Except.ok () ∧
    computeRange (getItemHeight (some f) getItemKey cache est) s v n ov =
      computeRange (getItemHeight (some f) getItemKey cache2 est2) s v n ov :=
  ⟨fun _ => rfl, by simp [validateProps], rfl⟩

/-- C10 (witness): concrete instance — a measurement report at index 0 does
not change the computed range when an explicit `itemHeight` is present. -/
theorem explicit_itemHeight_shadows_cache_app :
    computeRange
        (getItemHeight (some (fun _ => (40 : ℚ))) (fun i => (i : ℤ))
          (fun _ => none) 16) 0 600 4 3 =
      computeRange
        (getItemHeight (some (fun _ => (40 : ℚ))) (fun i => (i : ℤ))
          (measureElement (fun i => (i : ℤ)) (fun _ => none) 0 50) 99) 0 600 4 3 :=
  (explicit_itemHeight_shadows_cache (fun _ => (40 : ℚ)) (fun i => (i : ℤ))
    (fun _ => none) (measureElement (fun i => (i : ℤ)) (fun _ => none) 0 50)
    16 99 0 600 4 3).2.2

/-- C2 (amended): under a Fixed (uniform-height) strategy with `height > 0`,
`0 ≤ scrollOffset < itemCount*height` and `scrollOffset + viewportSize ≤
itemCount*height`, the O(1) fast path with its end formula corrected to
`min(itemCount-1, max(0, ceil((scrollOffset+viewportSize)/height) - 1) +
overscan)` produces exactly the `{startIndex, endIndex, totalHeight}` of the
general single forward pass.  (With the spec's `ceil(...) + overscan` end
formula the claim is refuted by
`fixedFastPath_spec_differs_from_general_pass`.) -/
theorem fixedFastPath_corrected_matches_general_pass (w s v : ℚ) (n ov : ℕ)
    (hw : 0 < w) (hs : 0 ≤ s) (hn : 0 < n) (hlt : s < (n : ℚ) * w)
    (hle : s + v ≤ (n : ℚ) * w) :
    ((computeRange (fun _ => w) s v n ov).startIndex,
     (computeRange (fun _ => w) s v n ov).endIndex,
     (computeRange (fun _ => w) s v n ov).totalHeight) =
      correctedFastPathRange w s v n ov := by
  obtain ⟨h1, h2, h3⟩ := computeRange_const_height w s v n ov hw hs hn hlt hle
  rw [h1, h2, h3]
  rfl

/-- C2 (counterexample): at height 40, scrollOffset 0, viewportSize 600,
itemCount 1000, overscan 3 the fast path as the spec states it yields
`endIndex = ceil(600/40) + 3 = 18`, while the general pass — whose bottom-edge
test `offsetTop + height >= scrollOffset + viewportSize` already fires at
index 14, whose bottom edge is exactly 600 — yields `endIndex = 17`. -/
theorem fixedFastPath_spec_differs_from_general_pass :
    fixedFastPathRange 40 0 600 1000 3 = (0, 18, 40000) ∧
    (computeRange (fun _ => (40 : ℚ)) 0 600 1000 3).endIndex = 17 := by
  constructor
  · unfold fixedFastPathRange
    norm_num
  · have h := (computeRange_const_height 40 0 600 1000 3 (by norm_num)
      (by norm_num) (by norm_num) (by norm_num) (by norm_num)).2.1
    rw [h]
    norm_num

/-- C2 (witness): concrete instance of the corrected equivalence. -/
theorem fixedFastPath_corrected_matches_general_pass_app :
    ((computeRange (fun _ => (40 : ℚ)) 0 600 1000 3).startIndex,
     (computeRange (fun _ => (40 : ℚ)) 0 600 1000 3).endIndex,
     (computeRange (fun _ => (40 : ℚ)) 0 600 1000 3).totalHeight) =
      correctedFastPathRange 40 0 600 1000 3 :=
  fixedFastPath_corrected_matches_general_pass 40 0 600 1000 3 (by norm_num)
    (by norm_num) (by norm_num) (by norm_num) (by norm_num)

/-- C4 (amended): with itemCount 1000, fixed height 40, overscan 3,
viewportSize 600 and scrollOffset 0 the general pass returns
`startIndex = 0`, `endIndex = 17` and `totalHeight = 40000`.  (The claimed
`endIndex = 18` is refuted by `concrete_scenario_endIndex_is_17_not_18`.) -/
theorem concrete_scenario_range_values :
    (computeRange (fun _ => (40 : ℚ)) 0 600 1000 3).startIndex = 0 ∧
    (computeRange (fun _ => (40 : ℚ)) 0 600 1000 3).endIndex = 17 ∧
    (computeRange (fun _ => (40 : ℚ)) 0 600 1000 3).totalHeight = 40000 := by
  obtain ⟨h1, h2, h3⟩ := computeRange_const_height 40 0 600 1000 3 (by norm_num)
    (by norm_num) (by norm_num) (by norm_num) (by norm_num)
  refine ⟨?_, ?_, ?_⟩
  · rw [h1]; norm_num
  · rw [h2]; norm_num
  · rw [h3]; norm_num

/-- C4 (counterexample): in that scenario the general pass's `endIndex` is
not 18 — row 14 spans `[560, 600)`, so the bottom-edge test fires at index
14 and `endIndex = min(999, 14 + 3) = 17`. -/
theorem concrete_scenario_endIndex_is_17_not_18 :
    (computeRange (fun _ => (40 : ℚ)) 0 600 1000 3).endIndex ≠ 18 := by
  have h := (computeRange_const_height 40 0 600 1000 3 (by norm_num)
    (by norm_num) (by norm_num) (by norm_num) (by norm_num)).2.1
  rw [h]
  norm_num

/-- The `useFixedSizeList` scroll handler behaves identically for every
configured `scrollingDelay`: the prop never reaches the `setTimeout` call. -/
lemma handleScroll_ignores_scrollingDelay (d d' now : ℚ) (s : EffectState) :
    handleScroll d now s = handleScroll d' now s := rfl

/-- The `useFixedListSize` handler of src/unnamed/part_000, by contrast, does
schedule its timer `scrollingDelay` after the notification. -/
lemma handleScrollSimple_uses_delay (d now : ℚ) :
    (handleScrollSimple d now setupEffect).pendingTimers = [(1, now + d)] := rfl

/-- C8 (code evaluation): with `scrollingDelay` configured to 100, a scroll
notification at t=0 sets `isScrolling` immediately and schedules the reset
timer for t=150 — the hard-coded `SCROLLING_DELAY`, not the configured 100 —
so at t=120, after 120 quiet time units, the flag is still `true`; a second
notification before expiry cancels the pending timer and reschedules (one
timer at t=270, never two); left quiet, the flag drops only at t=150. -/
theorem isScrolling_debounce_uses_hardcoded_delay :
    (scrollEvent 100 0 setupEffect).isScrolling = true ∧
    (scrollEvent 100 0 setupEffect).pendingTimers = [(1, 150)] ∧
    (fireDueTimers 120 (scrollEvent 100 0 setupEffect)).isScrolling = true ∧
    (scrollEvent 100 120 (scrollEvent 100 0 setupEffect)).pendingTimers =
      [(2, 270)] ∧
    (fireDueTimers 150 (scrollEvent 100 0 setupEffect)).isScrolling = false := by
  have h1 : scrollEvent 100 0 setupEffect =
      EffectState.mk true (some 1) [(1, 150)] 2 true := by
    norm_num [scrollEvent, setupEffect, handleScroll, setTimeoutAt,
      SCROLLING_DELAY]
  rw [h1]
  refine ⟨rfl, rfl, ?_, ?_, ?_⟩
  · norm_num [fireDueTimers, clearTimeoutId]
  · norm_num [scrollEvent, handleScroll, clearTimeoutId, setTimeoutAt,
      SCROLLING_DELAY]
  · norm_num [fireDueTimers, clearTimeoutId]

/-- C9 (code evaluation): after a scroll at t=0 (reset timer pending at
t=150), tearing the effect down only detaches the scroll listener — the
pending debounce timer survives the cleanup, and when it expires its stale
`setIsScrolling(false)` callback still fires on the detached state. -/
theorem cleanup_leaves_pending_timer :
    (cleanupEffect (scrollEvent 150 0 setupEffect)).listenerAttached = false ∧
    (cleanupEffect (scrollEvent 150 0 setupEffect)).pendingTimers =
      [(1, 150)] ∧
    (cleanupEffect (scrollEvent 150 0 setupEffect)).isScrolling = true ∧
    (fireDueTimers 150
      (cleanupEffect (scrollEvent 150 0 setupEffect))).isScrolling = false := by
  have h1 : scrollEvent 150 0 setupEffect =
      EffectState.mk true (some 1) [(1, 150)] 2 true := by
    norm_num [scrollEvent, setupEffect, handleScroll, setTimeoutAt,
      SCROLLING_DELAY]
  rw [h1]
  refine ⟨rfl, rfl, rfl, ?_⟩
  norm_num [cleanupEffect, fireDueTimers, clearTimeoutId]

end VirtualScroll
